import Mathlib

/-!
# Verification of `mediafiler.py`

A shallow embedding of `src/mediafiler.py` (a media-file classifier that
copies files from a source tree into date-bucketed destination folders)
together with proofs settling the specification claims.

Conventions of the embedding:

* A filesystem path is a list of components (`Path`); file contents are
  byte lists (`Content`).  The filesystem is an association list from
  paths to contents; writing prepends (shadowing any older entry), so a
  write never removes a path.
* MD5 is modelled as an arbitrary function `md5 : Content → Nat` passed
  as a parameter: the script uses the digest only for equality testing
  (`compare_md5sums`), never inspecting its value, and the digest of a
  file is a function of its full content (the 4096-byte chunking of
  `get_md5sum` does not change that).
* `random.choice` is modelled by an oracle `pick : Nat → Nat` consumed
  at increasing indices (`MainState.randCtr` tracks the next index),
  so theorems quantify over every possible random outcome.
* `pyexiv2.Image(...).read_exif()` and `os.stat(...).st_mtime` are
  external effects, modelled by an `Env` record: `exif` returns either
  the EXIF dictionary (an association list) or an exception
  (`Except.error`), and `mtimeYM` returns the year/month of the
  last-modified timestamp or an exception.
* Python exceptions are `Except.error`; a `try`/`except` block is a
  `match` on the `Except` value.
* The script never builds an explicit decision value; the `CopyDecision`
  emitted by the embedding labels which branch of `main`'s per-file
  body ran, following the spec's `CopyDecision` taxonomy.
-/

namespace Mediafiler

/-- File content: a list of bytes. -/
abbrev Content := List Nat

/-- A filesystem path, as a list of components.  A source file is
`[srcdir, file]`; a destination file is `[dst, bucket, file]`. -/
abbrev Path := List String

/-- Association-list lookup for the filesystem (first match wins,
mirroring the fact that a written file shadows the previous content). -/
def lookupP : List (Path × Content) → Path → Option Content
  | [], _ => none
  | (q, v) :: rest, p => if p = q then some v else lookupP rest p

/-- The filesystem: a finite map from paths to contents. -/
structure FS where
  files : List (Path × Content)
  deriving Repr, DecidableEq

/-- Reading a file: `some` content, or `none` when opening would raise. -/
def FS.read (fs : FS) (p : Path) : Option Content := lookupP fs.files p

/-- Writing a file (the effect of `shutil.copy2` at its target). -/
def FS.write (fs : FS) (p : Path) (v : Content) : FS := ⟨(p, v) :: fs.files⟩

/-- Line 15: `IMAGE_EXT = ('.jpg', '.jpeg', '.png', '.gif')`. -/
def IMAGE_EXT : List String := [".jpg", ".jpeg", ".png", ".gif"]

/-- Line 16: `VIDEO_EXT = ('.mts', '.mp4', '.avi')`. -/
def VIDEO_EXT : List String := [".mts", ".mp4", ".avi"]

/-- ASCII digit test, the character class `[0-9]` of the regex. -/
def isDig (c : Char) : Bool := '0' ≤ c && c ≤ '9'

/-- Attempt to match the regex `([0-9]{8})_[0-9]{6}\.` (line 21,
`datere`) at the head of the character list, returning the 8-digit
capture group on success.  The pattern is fixed-width, so matching at a
position is deterministic. -/
def dateMatchAt (cs : List Char) : Option (List Char) :=
  let d8 := cs.take 8
  let rest := cs.drop 8
  if d8.length = 8 ∧ d8.all isDig then
    match rest with
    | '_' :: rest2 =>
      let d6 := rest2.take 6
      let rest3 := rest2.drop 6
      if d6.length = 6 ∧ d6.all isDig then
        match rest3 with
        | '.' :: _ => some d8
        | _ => none
      else none
    | _ => none
  else none

/-- Model of `re.search(datere, s)`: scan left to right for the first position
where `datere` matches, returning the captured 8 digits. -/
def reSearchDateAux : List Char → Option (List Char)
  | [] => none
  | c :: cs =>
    match dateMatchAt (c :: cs) with
    | some d => some d
    | none => reSearchDateAux cs

/-- Model of `re.search(datere, s)` on a string, yielding `match.group(1)`. -/
def reSearchDate (s : String) : Option String :=
  (reSearchDateAux s.toList).map String.mk

/-- Bucket from the 8-digit filename token:
`"{}-{}".format(dt[:4], dt[4:6])` (lines 60 and 72). -/
def dtBucket (dt : String) : String :=
  String.mk (dt.toList.take 4) ++ "-" ++ String.mk ((dt.toList.drop 4).take 2)

/-- Python `"{:0wd}".format(n)` for a natural number: decimal digits,
left-padded with zeros to width `w`. -/
def zfill (w : Nat) (n : Nat) : String :=
  let s := toString n
  String.mk (List.replicate (w - s.length) '0') ++ s

/-- Python `s.split(sep)` on a single-character separator, by structural
recursion over the characters (`acc` holds the current piece reversed). -/
def splitCharAux (sep : Char) : List Char → List Char → List (List Char)
  | [], acc => [acc.reverse]
  | c :: rest, acc =>
    if c = sep then acc.reverse :: splitCharAux sep rest []
    else splitCharAux sep rest (c :: acc)

/-- Python `s.split(':', 2)`: split on `':'` at most twice; the third
part keeps any remaining colons. -/
def splitColon2 (s : String) : List String :=
  let parts := (splitCharAux ':' s.toList []).map String.mk
  if parts.length ≤ 3 then parts
  else parts.take 2 ++ [String.intercalate ":" (parts.drop 2)]

/-- Unpacking `y, m, _ = value.split(':', 2)` followed by
`"{}-{}".format(y, m)` (lines 51-52 and 54-55).  Unpacking raises
`ValueError` unless the split produced exactly three parts. -/
def exifYM (v : String) : Except String String :=
  match splitColon2 v with
  | [y, m, _] => Except.ok (y ++ "-" ++ m)
  | _ => Except.error "ValueError: cannot unpack"

/-- The external world: EXIF reading (may raise) and the
last-modified-timestamp year/month (may raise, e.g. `os.stat` failing). -/
structure Env where
  exif : String → String → Except String (List (String × String))
  mtimeYM : String → String → Except String (Nat × Nat)

/-- Function `infer_image_dest_folder` (lines 47-65).  `pyexiv2.Image` /
`read_exif` failures surface as `Except.error` (the function itself has
no handler).  `exif_data and KEY in exif_data` is the nonempty-dict
test conjoined with key membership. -/
def infer_image_dest_folder (env : Env) (dir file : String) :
    Except String String :=
  match env.exif dir file with
  | Except.error e => Except.error e
  | Except.ok exif_data =>
    if exif_data ≠ [] ∧ (exif_data.lookup "Exif.Image.DateTime").isSome then
      exifYM ((exif_data.lookup "Exif.Image.DateTime").getD "")
    else if exif_data ≠ [] ∧
        (exif_data.lookup "Exif.Photo.DateTimeOriginal").isSome then
      exifYM ((exif_data.lookup "Exif.Photo.DateTimeOriginal").getD "")
    else
      match reSearchDate file with
      | some dt => Except.ok (dtBucket dt)
      | none => Except.ok "unknown"

/-- Function `infer_video_dest_folder` (lines 68-81): filename pattern first,
else year/month of the last-modified timestamp, formatted
`"{:04d}-{:02d}"`. -/
def infer_video_dest_folder (env : Env) (dir file : String) :
    Except String String :=
  match reSearchDate file with
  | some dt => Except.ok (dtBucket dt)
  | none =>
    match env.mtimeYM dir file with
    | Except.error e => Except.error e
    | Except.ok (y, m) => Except.ok (zfill 4 y ++ "-" ++ zfill 2 m)

/-- Python `str.lower` (ASCII-lowercasing suffices for the extension
sets in play). -/
def pyLower (s : String) : String := String.mk (s.toList.map Char.toLower)

/-- Test `file.lower().endswith(ext_list)` (line 93): case-insensitive match
against any extension of the tuple (`endswith` is a suffix test). -/
def lowerEndsWithAny (file : String) (exts : List String) : Bool :=
  exts.any (fun e => e.toList.isSuffixOf (pyLower file).toList)

/-- Function `walk_src_dir` (lines 84-102).  `walkList` is the sequence of
`(root, files)` pairs produced by `os.walk`.  The `try`/`except` inside
the loop catches any exception from date inference and *skips* the file
(no tuple is yielded for it); the walk then continues. -/
def walk_src_dir (env : Env) (walkList : List (String × List String))
    (file_type : String) : List (String × String × String) :=
  let ext_list := if file_type = "image" then IMAGE_EXT else VIDEO_EXT
  walkList.flatMap (fun rf =>
    rf.2.filterMap (fun file =>
      if lowerEndsWithAny file ext_list then
        match (if file_type = "image" then infer_image_dest_folder env rf.1 file
               else infer_video_dest_folder env rf.1 file) with
        | Except.ok dstdir => some (rf.1, file, dstdir)
        | Except.error _ => none
      else none))

/-- Alphabet of `rand_str` (line 26): `letters = string.ascii_lowercase +
string.digits`. -/
def lettersStr : String := "abcdefghijklmnopqrstuvwxyz0123456789"

/-- Function `rand_str` (lines 25-27): join of `length` characters, each chosen
from `lettersStr` by the random oracle `choice` (indices are reduced
modulo the alphabet size, so every oracle value selects a letter, as
`random.choice` does). -/
def rand_str (choice : Nat → Nat) (length : Nat := 5) : String :=
  String.mk ((List.range length).map
    (fun i => lettersStr.toList.getD (choice i % lettersStr.length) 'a'))

/-- Function `get_md5sum` (lines 31-36): open the file (raising if absent) and
digest its full content.  The digest function itself is the parameter
`md5`. -/
def get_md5sum (md5 : Content → Nat) (fs : FS) (fname : Path) :
    Except String Nat :=
  match fs.read fname with
  | some v => Except.ok (md5 v)
  | none => Except.error "cannot open file"

/-- Function `compare_md5sums` (lines 39-44): digest both files and
compare; a digest failure propagates. -/
def compare_md5sums (md5 : Content → Nat) (fs : FS) (fnamea fnameb : Path) :
    Except String Bool :=
  match get_md5sum md5 fs fnamea with
  | Except.error e => Except.error e
  | Except.ok md5sum1 =>
    match get_md5sum md5 fs fnameb with
    | Except.error e => Except.error e
    | Except.ok md5sum2 => Except.ok (decide (md5sum1 = md5sum2))

/-- Model of `shutil.copy2(src, dst)`: read the source (raising if unreadable)
and write its content at the destination. -/
def copy2 (fs : FS) (src dst : Path) : Except String FS :=
  match fs.read src with
  | some v => Except.ok (fs.write dst v)
  | none => Except.error "copy failed: cannot read source"

/-- The spec's `CopyDecision`, labelling which branch of `main`'s
per-file body (lines 141-150) ran for a candidate. -/
inductive CopyDecision where
  | Copied (path : Path)
  | CopiedWithSuffix (path : Path) (pfx : String)
  | SkippedIdentical
  deriving Repr, DecidableEq

/-- The mutable state of `main`'s loop (lines 126-150): the filesystem,
the `createdSubdirs` memo, the `nfiles`/`cfiles` counters, and the next
unconsumed index of the random oracle. -/
structure MainState where
  fs : FS
  createdSubdirs : List String
  nfiles : Nat
  cfiles : Nat
  randCtr : Nat
  deriving Repr

/-- The source path `pathlib.Path(srcdir, file)` of a candidate
`(srcdir, file, dstpart)`. -/
def srcPath (c : String × String × String) : Path := [c.1, c.2.1]

/-- The destination path `pathlib.Path(args.dst, dstpart, file)` of a
candidate `(srcdir, file, dstpart)`. -/
def dstPath (dst : String) (c : String × String × String) : Path :=
  [dst, c.2.2, c.2.1]

/-- Lines 134-137 of `main`'s loop body: `nfiles += 1`, then the
memoized `mkdir` of the bucket directory (which only updates
`createdSubdirs`; directory existence is not part of the filesystem
model since copies never depend on it). -/
def bumpState (st : MainState) (dstpart : String) : MainState :=
  let st1 := { st with nfiles := st.nfiles + 1 }
  if st1.createdSubdirs.contains dstpart then st1
  else { st1 with createdSubdirs := dstpart :: st1.createdSubdirs }

/-- Lines 139-150 of `main`'s loop body: the dedup/copy placement of
candidate `(srcdir, file, dstpart)`.  An `Except.error` result is an
exception escaping the loop body; mutations preceding it (the
random-counter advance) persist in the returned state. -/
def placeFile (md5 : Content → Nat) (pick : Nat → Nat) (dst : String)
    (st : MainState) (c : String × String × String) :
    MainState × Except String CopyDecision :=
  if (st.fs.read (dstPath dst c)).isSome then
    match compare_md5sums md5 st.fs (srcPath c) (dstPath dst c) with
    | Except.error e => (st, Except.error e)
    | Except.ok true => (st, Except.ok CopyDecision.SkippedIdentical)
    | Except.ok false =>
      let p := rand_str (fun i => pick (st.randCtr + i)) 5
      let st3 := { st with randCtr := st.randCtr + 5 }
      let newdstpath : Path := [dst, c.2.2, p ++ "-" ++ c.2.1]
      match copy2 st3.fs (srcPath c) newdstpath with
      | Except.error e => (st3, Except.error e)
      | Except.ok fs2 =>
        ({ st3 with fs := fs2 },
          Except.ok (CopyDecision.CopiedWithSuffix newdstpath p))
  else
    match copy2 st.fs (srcPath c) (dstPath dst c) with
    | Except.error e => (st, Except.error e)
    | Except.ok fs2 =>
      ({ st with fs := fs2, cfiles := st.cfiles + 1 },
        Except.ok (CopyDecision.Copied (dstPath dst c)))

/-- One iteration of `main`'s loop body (lines 134-150) on a candidate:
the counter/mkdir preamble followed by the dedup/copy placement. -/
def processFile (md5 : Content → Nat) (pick : Nat → Nat) (dst : String)
    (st : MainState) (c : String × String × String) :
    MainState × Except String CopyDecision :=
  placeFile md5 pick dst (bumpState st c.2.2) c

/-- Loop of `main` inside its single `try` (lines 129-152): each
candidate is processed in turn; the first exception aborts the loop
(`except` at line 151 catches it outside the loop), leaving the
remaining candidates unprocessed.  Returns the final state, the list of
decisions of the fully processed candidates, and the caught exception
if any. -/
def mainLoop (md5 : Content → Nat) (pick : Nat → Nat) (dst : String)
    (st : MainState) : List (String × String × String) →
    MainState × List CopyDecision × Option String
  | [] => (st, [], none)
  | c :: cs =>
    match processFile md5 pick dst st c with
    | (st1, Except.error e) => (st1, [], some e)
    | (st1, Except.ok d) =>
      match mainLoop md5 pick dst st1 cs with
      | (st2, ds, err) => (st2, d :: ds, err)

/-- The outcome of one program run: final state (its `nfiles` and
`cfiles` are the two summary lines of lines 154-155), the per-candidate
decisions, and the top-level exception caught at line 151, if any. -/
structure RunResult where
  state : MainState
  decisions : List CopyDecision
  err : Option String
  deriving Repr

/-- Function `main` (lines 105-155), minus logging/argparse plumbing: walk the
source tree, then run the copy loop from fresh counters over an initial
filesystem `fs0`. -/
def main (md5 : Content → Nat) (pick : Nat → Nat) (env : Env)
    (walkList : List (String × List String)) (dst file_type : String)
    (fs0 : FS) : RunResult :=
  let cands := walk_src_dir env walkList file_type
  let init : MainState :=
    { fs := fs0, createdSubdirs := [], nfiles := 0, cfiles := 0, randCtr := 0 }
  match mainLoop md5 pick dst init cands with
  | (st, ds, err) => ⟨st, ds, err⟩

/-- Marker for the decisions counted by the `cfiles` summary line: only
plain copies (line 150 is the sole `cfiles += 1`). -/
def isPlainCopy : CopyDecision → Bool
  | CopyDecision.Copied _ => true
  | _ => false

/-! ### Concrete test fixtures

Small environments, filesystems and oracles used to instantiate the
theorems on concrete inputs. -/

/-- A concrete digest function for test runs (digest of a byte list;
only equality of digests is ever consumed). -/
def md5c : Content → Nat := fun l => l.sum

/-- Random oracle constantly 0: `rand_str` yields `"aaaaa"`. -/
def pickZero : Nat → Nat := fun _ => 0

/-- Random oracle constantly 1: `rand_str` yields `"bbbbb"`. -/
def pickOne : Nat → Nat := fun _ => 1

/-- Random oracle constantly 23: `rand_str` yields `"xxxxx"`. -/
def pickX : Nat → Nat := fun _ => 23

/-- World with empty EXIF dictionaries and last-modified May 2020. -/
def envEmptyExif : Env :=
  ⟨fun _ _ => Except.ok [], fun _ _ => Except.ok (2020, 5)⟩

/-- World where every EXIF read raises (unreadable/corrupt file). -/
def envExifFail : Env :=
  ⟨fun _ _ => Except.error "pyexiv2: cannot open", fun _ _ => Except.ok (2020, 5)⟩

/-- World whose EXIF timestamp has a month that is not zero-padded. -/
def envExifMonth7 : Env :=
  ⟨fun _ _ => Except.ok [("Exif.Image.DateTime", "2023:7:15 10:00:00")],
   fun _ _ => Except.ok (2020, 5)⟩

/-- Initial loop state over a filesystem with a source/destination name
collision of different content (for the dedup-branch instances). -/
def stC5 : MainState :=
  ⟨⟨[([ "r", "a.jpg"], [1]), (["d", "unknown", "a.jpg"], [2])]⟩, [], 0, 0, 0⟩

/-- The candidate whose placement is exercised in the dedup instances. -/
def cC5 : String × String × String := ("r", "a.jpg", "unknown")

/-- Walk input with two files under one root; the first source file is
unreadable in `fsC1`. -/
def wlC1 : List (String × List String) := [("r", ["a.jpg", "b.jpg"])]

/-- Filesystem where source `r/a.jpg` is missing (its copy raises) but
`r/b.jpg` is readable. -/
def fsC1 : FS := ⟨[(["r", "b.jpg"], [1])]⟩

/-- Filesystem for the suffix-collision instance: the destination
already holds both `a.jpg` (different content) and `xxxxx-a.jpg`. -/
def fsC4 : FS :=
  ⟨[(["r", "a.jpg"], [1]), (["d", "unknown", "a.jpg"], [2]),
    (["d", "unknown", "xxxxx-a.jpg"], [9])]⟩

/-- Filesystem where the destination holds `a.jpg` with content
differing from source `r/a.jpg`. -/
def fsC6 : FS := ⟨[(["r", "a.jpg"], [1]), (["d", "unknown", "a.jpg"], [2])]⟩

/-- Two source files with the same name and different contents. -/
def fsC7 : FS := ⟨[(["r1", "a.jpg"], [1]), (["r2", "a.jpg"], [2])]⟩

/-- Walk input listing the two colliding source roots. -/
def wlC7 : List (String × List String) := [("r1", ["a.jpg"]), ("r2", ["a.jpg"])]

/-- First full run over `fsC7` into an empty destination. -/
def runC7a : RunResult := main md5c pickZero envEmptyExif wlC7 "d" "image" fsC7

/-- Second run with identical arguments, from the filesystem the first
run left behind (fresh random stream). -/
def runC7b : RunResult :=
  main md5c pickOne envEmptyExif wlC7 "d" "image" runC7a.state.fs

/-- Single readable source file, used by the success-run witnesses. -/
def fsW : FS := ⟨[(["r", "a.jpg"], [1])]⟩

/-- Walk input for the success-run witnesses. -/
def wlW : List (String × List String) := [("r", ["a.jpg"])]

/-! ## Basic lemmas about the filesystem and the copy primitives -/

@[simp]
theorem FS.read_write (fs : FS) (p q : Path) (v : Content) :
    (fs.write p v).read q = if q = p then some v else fs.read q := rfl

theorem FS.read_write_isSome {fs : FS} {q : Path} (p : Path) (v : Content)
    (h : (fs.read q).isSome) : ((fs.write p v).read q).isSome := by
  rw [FS.read_write]
  split <;> simp_all

theorem get_md5sum_some {fs : FS} {p : Path} {v : Content}
    (md5 : Content → Nat) (h : fs.read p = some v) :
    get_md5sum md5 fs p = Except.ok (md5 v) := by
  unfold get_md5sum
  rw [h]

theorem get_md5sum_none {fs : FS} {p : Path} (md5 : Content → Nat)
    (h : fs.read p = none) :
    get_md5sum md5 fs p = Except.error "cannot open file" := by
  unfold get_md5sum
  rw [h]

theorem compare_md5sums_some {fs : FS} {a b : Path} {v w : Content}
    (md5 : Content → Nat) (ha : fs.read a = some v) (hb : fs.read b = some w) :
    compare_md5sums md5 fs a b = Except.ok (decide (md5 v = md5 w)) := by
  unfold compare_md5sums
  rw [get_md5sum_some md5 ha, get_md5sum_some md5 hb]

theorem copy2_some {fs : FS} {a : Path} {v : Content} (b : Path)
    (h : fs.read a = some v) :
    copy2 fs a b = Except.ok (fs.write b v) := by
  unfold copy2
  rw [h]

theorem copy2_none {fs : FS} {a : Path} (b : Path) (h : fs.read a = none) :
    copy2 fs a b = Except.error "copy failed: cannot read source" := by
  unfold copy2
  rw [h]

theorem copy2_ok {fs fs' : FS} {a b : Path} (h : copy2 fs a b = Except.ok fs') :
    ∃ v, fs.read a = some v ∧ fs' = fs.write b v := by
  unfold copy2 at h
  cases hr : fs.read a with
  | none => rw [hr] at h; cases h
  | some v =>
    rw [hr] at h
    injection h with h
    exact ⟨v, rfl, h.symm⟩

@[simp]
theorem bumpState_fs (st : MainState) (d : String) :
    (bumpState st d).fs = st.fs := by
  unfold bumpState
  dsimp only
  split <;> rfl

@[simp]
theorem bumpState_cfiles (st : MainState) (d : String) :
    (bumpState st d).cfiles = st.cfiles := by
  unfold bumpState
  dsimp only
  split <;> rfl

@[simp]
theorem bumpState_nfiles (st : MainState) (d : String) :
    (bumpState st d).nfiles = st.nfiles + 1 := by
  unfold bumpState
  dsimp only
  split <;> rfl

@[simp]
theorem bumpState_randCtr (st : MainState) (d : String) :
    (bumpState st d).randCtr = st.randCtr := by
  unfold bumpState
  dsimp only
  split <;> rfl

/-! ## Branch lemmas for the placement step -/

/-- Abbreviation for the suffixed destination path generated for a
candidate at random-counter position `st.randCtr`. -/
def suffixPath (pick : Nat → Nat) (dst : String) (st : MainState)
    (c : String × String × String) : Path :=
  [dst, c.2.2, rand_str (fun i => pick (st.randCtr + i)) 5 ++ "-" ++ c.2.1]

theorem placeFile_skip {st : MainState} {c : String × String × String}
    {v w : Content} (md5 : Content → Nat) (pick : Nat → Nat) (dst : String)
    (hs : st.fs.read (srcPath c) = some v)
    (hd : st.fs.read (dstPath dst c) = some w) (hm : md5 v = md5 w) :
    placeFile md5 pick dst st c = (st, Except.ok CopyDecision.SkippedIdentical) := by
  unfold placeFile
  rw [hd, compare_md5sums_some md5 hs hd]
  simp [hm]

theorem placeFile_suffix {st : MainState} {c : String × String × String}
    {v w : Content} (md5 : Content → Nat) (pick : Nat → Nat) (dst : String)
    (hs : st.fs.read (srcPath c) = some v)
    (hd : st.fs.read (dstPath dst c) = some w) (hm : md5 v ≠ md5 w) :
    placeFile md5 pick dst st c =
      ({ st with randCtr := st.randCtr + 5,
                 fs := st.fs.write (suffixPath pick dst st c) v },
       Except.ok (CopyDecision.CopiedWithSuffix (suffixPath pick dst st c)
         (rand_str (fun i => pick (st.randCtr + i)) 5))) := by
  unfold placeFile
  rw [hd, compare_md5sums_some md5 hs hd, decide_eq_false hm]
  dsimp only [Option.isSome_some, if_true]
  rw [show ([dst, c.2.2, rand_str (fun i => pick (st.randCtr + i)) 5 ++ "-" ++ c.2.1] : Path)
      = suffixPath pick dst st c from rfl, copy2_some _ hs]
  rfl

theorem placeFile_copy {st : MainState} {c : String × String × String}
    {v : Content} (md5 : Content → Nat) (pick : Nat → Nat) (dst : String)
    (hs : st.fs.read (srcPath c) = some v)
    (hd : st.fs.read (dstPath dst c) = none) :
    placeFile md5 pick dst st c =
      ({ st with fs := st.fs.write (dstPath dst c) v, cfiles := st.cfiles + 1 },
       Except.ok (CopyDecision.Copied (dstPath dst c))) := by
  unfold placeFile
  rw [hd, copy2_some _ hs]
  simp

theorem placeFile_err_src {st : MainState} {c : String × String × String}
    (md5 : Content → Nat) (pick : Nat → Nat) (dst : String)
    (hs : st.fs.read (srcPath c) = none) :
    (placeFile md5 pick dst st c).1 = st ∧
    ∃ e, (placeFile md5 pick dst st c).2 = Except.error e := by
  unfold placeFile
  cases hd : st.fs.read (dstPath dst c) with
  | none =>
    rw [copy2_none _ hs]
    simp
  | some w =>
    unfold compare_md5sums
    rw [get_md5sum_none md5 hs]
    simp

/-- Exhaustive description of the placement step: it either raises with
the state unchanged except possibly the consumed random values, skips an
identical file, copies with a random suffix, or plain-copies to a fresh
destination path. -/
theorem placeFile_cases (md5 : Content → Nat) (pick : Nat → Nat) (dst : String)
    (st : MainState) (c : String × String × String) :
    (∃ e st', (st' = st ∨ st' = { st with randCtr := st.randCtr + 5 }) ∧
       placeFile md5 pick dst st c = (st', Except.error e)) ∨
    (∃ v w, st.fs.read (srcPath c) = some v ∧
       st.fs.read (dstPath dst c) = some w ∧ md5 v = md5 w ∧
       placeFile md5 pick dst st c = (st, Except.ok CopyDecision.SkippedIdentical)) ∨
    (∃ v w, st.fs.read (srcPath c) = some v ∧
       st.fs.read (dstPath dst c) = some w ∧ md5 v ≠ md5 w ∧
       placeFile md5 pick dst st c =
         ({ st with randCtr := st.randCtr + 5,
                    fs := st.fs.write (suffixPath pick dst st c) v },
          Except.ok (CopyDecision.CopiedWithSuffix (suffixPath pick dst st c)
            (rand_str (fun i => pick (st.randCtr + i)) 5)))) ∨
    (∃ v, st.fs.read (srcPath c) = some v ∧
       st.fs.read (dstPath dst c) = none ∧
       placeFile md5 pick dst st c =
         ({ st with fs := st.fs.write (dstPath dst c) v, cfiles := st.cfiles + 1 },
          Except.ok (CopyDecision.Copied (dstPath dst c)))) := by
  cases hs : st.fs.read (srcPath c) with
  | none =>
    left
    obtain ⟨h1, e, h2⟩ := placeFile_err_src md5 pick dst hs
    refine ⟨e, (placeFile md5 pick dst st c).1, Or.inl h1, ?_⟩
    rw [← h2]
  | some v =>
    cases hd : st.fs.read (dstPath dst c) with
    | none =>
      right; right; right
      exact ⟨v, rfl, rfl, placeFile_copy md5 pick dst hs hd⟩
    | some w =>
      by_cases hm : md5 v = md5 w
      · right; left
        exact ⟨v, w, rfl, rfl, hm, placeFile_skip md5 pick dst hs hd hm⟩
      · right; right; left
        exact ⟨v, w, rfl, rfl, hm, placeFile_suffix md5 pick dst hs hd hm⟩

/-! ## Derived facts about one loop iteration -/

theorem placeFile_fs_mono (md5 : Content → Nat) (pick : Nat → Nat)
    (dst : String) (st : MainState) (c : String × String × String) (q : Path)
    (h : (st.fs.read q).isSome) :
    (((placeFile md5 pick dst st c).1).fs.read q).isSome := by
  rcases placeFile_cases md5 pick dst st c with
    ⟨e, st', hst, heq⟩ | ⟨v, w, hs, hd, hm, heq⟩ |
    ⟨v, w, hs, hd, hm, heq⟩ | ⟨v, hs, hd, heq⟩
  · rw [heq]; rcases hst with rfl | rfl <;> exact h
  · rw [heq]; exact h
  · rw [heq]; exact FS.read_write_isSome _ _ h
  · rw [heq]; exact FS.read_write_isSome _ _ h

theorem placeFile_nfiles (md5 : Content → Nat) (pick : Nat → Nat)
    (dst : String) (st : MainState) (c : String × String × String) :
    (placeFile md5 pick dst st c).1.nfiles = st.nfiles := by
  rcases placeFile_cases md5 pick dst st c with
    ⟨e, st', hst, heq⟩ | ⟨v, w, hs, hd, hm, heq⟩ |
    ⟨v, w, hs, hd, hm, heq⟩ | ⟨v, hs, hd, heq⟩
  · rw [heq]; rcases hst with rfl | rfl <;> rfl
  · rw [heq]
  · rw [heq]
  · rw [heq]

theorem placeFile_err_fs (md5 : Content → Nat) (pick : Nat → Nat)
    (dst : String) (st : MainState) (c : String × String × String) (e : String)
    (h : (placeFile md5 pick dst st c).2 = Except.error e) :
    (placeFile md5 pick dst st c).1.fs = st.fs := by
  rcases placeFile_cases md5 pick dst st c with
    ⟨e', st', hst, heq⟩ | ⟨v, w, hs, hd, hm, heq⟩ |
    ⟨v, w, hs, hd, hm, heq⟩ | ⟨v, hs, hd, heq⟩
  · rw [heq]; rcases hst with rfl | rfl <;> rfl
  · rw [heq] at h; cases h
  · rw [heq] at h; cases h
  · rw [heq] at h; cases h

theorem placeFile_cfiles_ok (md5 : Content → Nat) (pick : Nat → Nat)
    (dst : String) (st : MainState) (c : String × String × String)
    (d : CopyDecision) (h : (placeFile md5 pick dst st c).2 = Except.ok d) :
    (placeFile md5 pick dst st c).1.cfiles =
      st.cfiles + (if isPlainCopy d then 1 else 0) := by
  rcases placeFile_cases md5 pick dst st c with
    ⟨e, st', hst, heq⟩ | ⟨v, w, hs, hd, hm, heq⟩ |
    ⟨v, w, hs, hd, hm, heq⟩ | ⟨v, hs, hd, heq⟩
  · rw [heq] at h; cases h
  · rw [heq] at h ⊢; injection h with h; subst h; simp [isPlainCopy]
  · rw [heq] at h ⊢; injection h with h; subst h; simp [isPlainCopy]
  · rw [heq] at h ⊢; injection h with h; subst h; simp [isPlainCopy]

theorem placeFile_ok_exists (md5 : Content → Nat) (pick : Nat → Nat)
    (dst : String) (st : MainState) (c : String × String × String)
    (d : CopyDecision) (h : (placeFile md5 pick dst st c).2 = Except.ok d) :
    (((placeFile md5 pick dst st c).1).fs.read (srcPath c)).isSome ∧
    (((placeFile md5 pick dst st c).1).fs.read (dstPath dst c)).isSome := by
  rcases placeFile_cases md5 pick dst st c with
    ⟨e, st', hst, heq⟩ | ⟨v, w, hs, hd, hm, heq⟩ |
    ⟨v, w, hs, hd, hm, heq⟩ | ⟨v, hs, hd, heq⟩
  · rw [heq] at h; cases h
  · rw [heq]; simp [hs, hd]
  · rw [heq]
    exact ⟨FS.read_write_isSome _ _ (by simp [hs]),
           FS.read_write_isSome _ _ (by simp [hd])⟩
  · rw [heq]
    refine ⟨FS.read_write_isSome _ _ (by simp [hs]), ?_⟩
    rw [FS.read_write]
    simp

theorem placeFile_exists_ok (md5 : Content → Nat) (pick : Nat → Nat)
    (dst : String) (st : MainState) (c : String × String × String)
    (hs : (st.fs.read (srcPath c)).isSome)
    (hd : (st.fs.read (dstPath dst c)).isSome) :
    (placeFile md5 pick dst st c).1.cfiles = st.cfiles ∧
    ∃ d, (placeFile md5 pick dst st c).2 = Except.ok d := by
  obtain ⟨v, hv⟩ := Option.isSome_iff_exists.mp hs
  obtain ⟨w, hw⟩ := Option.isSome_iff_exists.mp hd
  by_cases hm : md5 v = md5 w
  · rw [placeFile_skip md5 pick dst hv hw hm]
    exact ⟨rfl, _, rfl⟩
  · rw [placeFile_suffix md5 pick dst hv hw hm]
    exact ⟨rfl, _, rfl⟩

theorem processFile_nfiles (md5 : Content → Nat) (pick : Nat → Nat)
    (dst : String) (st : MainState) (c : String × String × String) :
    (processFile md5 pick dst st c).1.nfiles = st.nfiles + 1 := by
  unfold processFile
  rw [placeFile_nfiles]
  simp

theorem processFile_fs_mono (md5 : Content → Nat) (pick : Nat → Nat)
    (dst : String) (st : MainState) (c : String × String × String) (q : Path)
    (h : (st.fs.read q).isSome) :
    (((processFile md5 pick dst st c).1).fs.read q).isSome := by
  unfold processFile
  exact placeFile_fs_mono md5 pick dst _ c q (by simpa using h)

theorem processFile_err_fs (md5 : Content → Nat) (pick : Nat → Nat)
    (dst : String) (st : MainState) (c : String × String × String) (e : String)
    (h : (processFile md5 pick dst st c).2 = Except.error e) :
    (processFile md5 pick dst st c).1.fs = st.fs := by
  unfold processFile at h ⊢
  rw [placeFile_err_fs md5 pick dst _ c e h]
  simp

theorem processFile_cfiles_ok (md5 : Content → Nat) (pick : Nat → Nat)
    (dst : String) (st : MainState) (c : String × String × String)
    (d : CopyDecision) (h : (processFile md5 pick dst st c).2 = Except.ok d) :
    (processFile md5 pick dst st c).1.cfiles =
      st.cfiles + (if isPlainCopy d then 1 else 0) := by
  unfold processFile at h ⊢
  rw [placeFile_cfiles_ok md5 pick dst _ c d h]
  simp

theorem processFile_ok_exists (md5 : Content → Nat) (pick : Nat → Nat)
    (dst : String) (st : MainState) (c : String × String × String)
    (d : CopyDecision) (h : (processFile md5 pick dst st c).2 = Except.ok d) :
    (((processFile md5 pick dst st c).1).fs.read (srcPath c)).isSome ∧
    (((processFile md5 pick dst st c).1).fs.read (dstPath dst c)).isSome := by
  unfold processFile at h ⊢
  exact placeFile_ok_exists md5 pick dst _ c d h

theorem processFile_exists_ok (md5 : Content → Nat) (pick : Nat → Nat)
    (dst : String) (st : MainState) (c : String × String × String)
    (hs : (st.fs.read (srcPath c)).isSome)
    (hd : (st.fs.read (dstPath dst c)).isSome) :
    (processFile md5 pick dst st c).1.cfiles = st.cfiles ∧
    ∃ d, (processFile md5 pick dst st c).2 = Except.ok d := by
  unfold processFile
  have h := placeFile_exists_ok md5 pick dst (bumpState st c.2.2) c
    (by simpa using hs) (by simpa using hd)
  simpa using h

/-! ## Facts about the whole loop -/

theorem mainLoop_fs_mono (md5 : Content → Nat) (pick : Nat → Nat)
    (dst : String) : ∀ (cands : List (String × String × String))
    (st : MainState) (q : Path), (st.fs.read q).isSome →
    (((mainLoop md5 pick dst st cands).1).fs.read q).isSome := by
  intro cands
  induction cands with
  | nil => intro st q h; exact h
  | cons c cs ih =>
    intro st q h
    rcases hp : processFile md5 pick dst st c with ⟨st1, r⟩
    have h1 : ((st1.fs).read q).isSome := by
      have hx := processFile_fs_mono md5 pick dst st c q h
      rw [hp] at hx
      exact hx
    cases r with
    | error e => simp only [mainLoop, hp]; exact h1
    | ok d =>
      rcases hm : mainLoop md5 pick dst st1 cs with ⟨st2, ds, err⟩
      have hx := ih st1 q h1
      rw [hm] at hx
      simp only [mainLoop, hp, hm]
      exact hx

/-- Counting invariant of an exception-free loop: one decision per
candidate, `nfiles` counts every candidate, and `cfiles` counts exactly
the plain-`Copied` decisions. -/
theorem mainLoop_none_counts (md5 : Content → Nat) (pick : Nat → Nat)
    (dst : String) : ∀ (cands : List (String × String × String))
    (st st' : MainState) (ds : List CopyDecision),
    mainLoop md5 pick dst st cands = (st', ds, none) →
    ds.length = cands.length ∧
    st'.nfiles = st.nfiles + cands.length ∧
    st'.cfiles = st.cfiles + ds.countP (fun d => isPlainCopy d) := by
  intro cands
  induction cands with
  | nil =>
    intro st st' ds heq
    cases heq
    simp
  | cons c cs ih =>
    intro st st' ds heq
    rcases hp : processFile md5 pick dst st c with ⟨st1, r⟩
    cases r with
    | error e => simp only [mainLoop, hp] at heq; cases heq
    | ok d =>
      rcases hm : mainLoop md5 pick dst st1 cs with ⟨st2, ds2, err⟩
      simp only [mainLoop, hp, hm] at heq
      injection heq with e1 e2
      injection e2 with e2 e3
      subst e1
      subst e2
      subst e3
      obtain ⟨hlen, hn, hc⟩ := ih st1 st2 ds2 hm
      have hn1 : st1.nfiles = st.nfiles + 1 := by
        have hx := processFile_nfiles md5 pick dst st c
        rw [hp] at hx
        exact hx
      have hc1 : st1.cfiles = st.cfiles + (if isPlainCopy d then 1 else 0) := by
        have hx := processFile_cfiles_ok md5 pick dst st c d (by rw [hp])
        rw [hp] at hx
        exact hx
      refine ⟨by simp [hlen], ?_, ?_⟩
      · simp only [List.length_cons]
        omega
      · rw [List.countP_cons]
        omega

/-- After an exception-free loop, the source and destination paths of
every processed candidate are present in the final filesystem. -/
theorem mainLoop_none_exists (md5 : Content → Nat) (pick : Nat → Nat)
    (dst : String) : ∀ (cands : List (String × String × String))
    (st st' : MainState) (ds : List CopyDecision),
    mainLoop md5 pick dst st cands = (st', ds, none) →
    ∀ c ∈ cands, ((st'.fs).read (srcPath c)).isSome ∧
      ((st'.fs).read (dstPath dst c)).isSome := by
  intro cands
  induction cands with
  | nil => intro st st' ds heq c hc; cases hc
  | cons c cs ih =>
    intro st st' ds heq c' hc'
    rcases hp : processFile md5 pick dst st c with ⟨st1, r⟩
    cases r with
    | error e => simp only [mainLoop, hp] at heq; cases heq
    | ok d =>
      rcases hm : mainLoop md5 pick dst st1 cs with ⟨st2, ds2, err⟩
      simp only [mainLoop, hp, hm] at heq
      injection heq with e1 e2
      injection e2 with e2 e3
      subst e1
      subst e2
      subst e3
      rcases List.mem_cons.mp hc' with rfl | hmem
      · have hx := processFile_ok_exists md5 pick dst st c' d (by rw [hp])
        rw [hp] at hx
        constructor
        · have := mainLoop_fs_mono md5 pick dst cs st1 (srcPath c') hx.1
          rw [hm] at this
          exact this
        · have := mainLoop_fs_mono md5 pick dst cs st1 (dstPath dst c') hx.2
          rw [hm] at this
          exact this
      · exact ih st1 st2 ds2 hm c' hmem

/-- When every candidate's source and destination path already exist,
the loop raises no exception and performs no plain copy (`cfiles` is
unchanged). -/
theorem mainLoop_exists_zero (md5 : Content → Nat) (pick : Nat → Nat)
    (dst : String) : ∀ (cands : List (String × String × String))
    (st : MainState),
    (∀ c ∈ cands, ((st.fs).read (srcPath c)).isSome ∧
      ((st.fs).read (dstPath dst c)).isSome) →
    (mainLoop md5 pick dst st cands).1.cfiles = st.cfiles ∧
    (mainLoop md5 pick dst st cands).2.2 = none := by
  intro cands
  induction cands with
  | nil => intro st _; exact ⟨rfl, rfl⟩
  | cons c cs ih =>
    intro st hex
    obtain ⟨hc1, d, hd⟩ := processFile_exists_ok md5 pick dst st c
      (hex c (List.mem_cons_self c cs)).1 (hex c (List.mem_cons_self c cs)).2
    rcases hp : processFile md5 pick dst st c with ⟨st1, r⟩
    rw [hp] at hc1 hd
    cases hd
    have hex1 : ∀ c' ∈ cs, ((st1.fs).read (srcPath c')).isSome ∧
        ((st1.fs).read (dstPath dst c')).isSome := by
      intro c' hc'
      have h1 := processFile_fs_mono md5 pick dst st c (srcPath c')
        (hex c' (List.mem_cons_of_mem c hc')).1
      have h2 := processFile_fs_mono md5 pick dst st c (dstPath dst c')
        (hex c' (List.mem_cons_of_mem c hc')).2
      rw [hp] at h1 h2
      exact ⟨h1, h2⟩
    obtain ⟨ha, hb⟩ := ih st1 hex1
    rcases hm : mainLoop md5 pick dst st1 cs with ⟨st2, ds2, err⟩
    rw [hm] at ha hb
    simp only [mainLoop, hp, hm]
    exact ⟨ha.trans hc1, hb⟩

/-! ## String-level helper lemmas -/

theorem getD_eq_or_mem {α : Type} : ∀ (l : List α) (i : Nat) (d : α),
    l.getD i d = d ∨ l.getD i d ∈ l := by
  intro l
  induction l with
  | nil => intro i d; left; cases i <;> rfl
  | cons a t ih =>
    intro i d
    cases i with
    | zero => right; exact List.mem_cons_self a t
    | succ j =>
      rcases ih j d with h | h
      · left; exact h
      · right; exact List.mem_cons_of_mem a h

theorem rand_str_length (choice : Nat → Nat) (n : Nat) :
    (rand_str choice n).length = n := by
  show (List.length _) = n
  rw [List.length_map, List.length_range]

theorem rand_str_chars (choice : Nat → Nat) (n : Nat) :
    ∀ ch ∈ (rand_str choice n).toList, ch ∈ lettersStr.toList := by
  intro ch hch
  have hch' : ch ∈ (List.range n).map
      (fun i => lettersStr.toList.getD (choice i % lettersStr.length) 'a') := hch
  obtain ⟨i, _, rfl⟩ := List.mem_map.mp hch'
  rcases getD_eq_or_mem lettersStr.toList (choice i % lettersStr.length) 'a' with h | h
  · rw [h]; decide
  · exact h

theorem suffix_name_ne (x f : String) (hx : x.length = 5) :
    x ++ "-" ++ f ≠ f := by
  intro h
  have hl := congrArg String.length h
  rw [String.length_append, String.length_append, hx] at hl
  have : ("-" : String).length = 1 := rfl
  omega

theorem suffixPath_ne_dstPath (pick : Nat → Nat) (dst : String)
    (st : MainState) (c : String × String × String) :
    suffixPath pick dst st c ≠ dstPath dst c := by
  intro h
  unfold suffixPath dstPath at h
  have h3 := (List.cons.injEq _ _ _ _ ▸ h :)
  simp only [List.cons.injEq] at h
  exact suffix_name_ne _ _ (rand_str_length _ 5) h.2.2.1

theorem dash_mem_data (a b : String) : '-' ∈ (a ++ "-" ++ b).data := by
  have h : (a ++ "-" ++ b).data = a.data ++ "-".data ++ b.data := rfl
  rw [h]
  apply List.mem_append_left
  apply List.mem_append_right
  decide

theorem ne_unknown_of_dash {s : String} (h : '-' ∈ s.data) :
    s ≠ "unknown" := by
  intro he
  rw [he] at h
  revert h
  decide

/-- Unfolding of `main` into its loop components. -/
theorem main_def (md5 : Content → Nat) (pick : Nat → Nat) (env : Env)
    (walkList : List (String × List String)) (dst file_type : String)
    (fs0 : FS) :
    main md5 pick env walkList dst file_type fs0 =
      ⟨(mainLoop md5 pick dst ⟨fs0, [], 0, 0, 0⟩
          (walk_src_dir env walkList file_type)).1,
       (mainLoop md5 pick dst ⟨fs0, [], 0, 0, 0⟩
          (walk_src_dir env walkList file_type)).2.1,
       (mainLoop md5 pick dst ⟨fs0, [], 0, 0, 0⟩
          (walk_src_dir env walkList file_type)).2.2⟩ := by
  unfold main
  dsimp only

/-! ## Claim C1 -/

/-- C1 (amended): an I/O failure while hashing or copying a candidate
escapes the loop body into `main`'s single `try` block (lines 129-152):
the failing candidate gets no decision (the code produces no `Failed`
value), the loop stops at once — every remaining candidate is left
unprocessed — while the failing file has already been counted by
`nfiles` and no partial write has been performed.  Only exceptions
raised during *date inference* are per-file (handled inside
`walk_src_dir`); copy/hash failures abort the rest of the run. -/
theorem copy_error_aborts_remaining (md5 : Content → Nat) (pick : Nat → Nat)
    (dst : String) (st : MainState) (c : String × String × String)
    (cs : List (String × String × String)) (e : String)
    (h : (processFile md5 pick dst st c).2 = Except.error e) :
    mainLoop md5 pick dst st (c :: cs) =
      ((processFile md5 pick dst st c).1, [], some e) ∧
    (processFile md5 pick dst st c).1.nfiles = st.nfiles + 1 ∧
    (processFile md5 pick dst st c).1.fs = st.fs := by
  refine ⟨?_, processFile_nfiles md5 pick dst st c,
    processFile_err_fs md5 pick dst st c e h⟩
  rcases hp : processFile md5 pick dst st c with ⟨st1, r⟩
  rw [hp] at h
  have hr : r = Except.error e := h
  subst hr
  simp only [mainLoop, hp]

/-- C1 (witness): a concrete aborting run — the copy of the first
candidate fails because its source cannot be read, and the loop result
is exactly the abort described by `copy_error_aborts_remaining`, with
the second candidate unprocessed. -/
theorem copy_error_aborts_remaining_witness :
    (processFile md5c pickZero "d" ⟨fsC1, [], 0, 0, 0⟩
      ("r", "a.jpg", "unknown")).2 =
      Except.error "copy failed: cannot read source" ∧
    mainLoop md5c pickZero "d" ⟨fsC1, [], 0, 0, 0⟩
      [("r", "a.jpg", "unknown"), ("r", "b.jpg", "unknown")] =
      ((processFile md5c pickZero "d" ⟨fsC1, [], 0, 0, 0⟩
        ("r", "a.jpg", "unknown")).1, [], some "copy failed: cannot read source") :=
  ⟨rfl, (copy_error_aborts_remaining md5c pickZero "d" ⟨fsC1, [], 0, 0, 0⟩
    ("r", "a.jpg", "unknown") [("r", "b.jpg", "unknown")]
    "copy failed: cannot read source" rfl).1⟩

/-- C1 (counterexample): the walk finds two matching candidate files,
but the copy failure on the first yields no `Failed` decision and the
run stops: the decision list is empty, the exception is the one caught
at top level, and `nfiles` never reaches the second file — contradicting
"all subsequent candidate files are still processed to their own
decisions". -/
theorem copy_error_abort_instance :
    (walk_src_dir envEmptyExif wlC1 "image").length = 2 ∧
    (main md5c pickZero envEmptyExif wlC1 "d" "image" fsC1).err =
      some "copy failed: cannot read source" ∧
    (main md5c pickZero envEmptyExif wlC1 "d" "image" fsC1).decisions = [] ∧
    (main md5c pickZero envEmptyExif wlC1 "d" "image" fsC1).state.nfiles = 1 :=
  ⟨rfl, rfl, rfl, rfl⟩

/-! ## Claim C2 -/

/-- C2 (amended): an I/O failure while reading embedded EXIF metadata is
*not* caught inside date resolution: `infer_image_dest_folder` lets the
exception propagate, and the handler in `walk_src_dir` then drops the
file without yielding any candidate — even when the filename carries a
usable 8-digit date pattern, which an exception-free resolution with
absent metadata would have used. -/
theorem exif_error_drops_file (env : Env) (r f e dt : String)
    (hx : lowerEndsWithAny f IMAGE_EXT = true)
    (he : env.exif r f = Except.error e)
    (hp : reSearchDate f = some dt) :
    infer_image_dest_folder env r f = Except.error e ∧
    walk_src_dir env [(r, [f])] "image" = [] ∧
    (∀ env' : Env, env'.exif r f = Except.ok [] →
      infer_image_dest_folder env' r f = Except.ok (dtBucket dt)) := by
  have h1 : infer_image_dest_folder env r f = Except.error e := by
    unfold infer_image_dest_folder
    rw [he]
  refine ⟨h1, ?_, ?_⟩
  · unfold walk_src_dir
    simp [hx, h1]
  · intro env' he'
    unfold infer_image_dest_folder
    simp [he', hp]

/-- C2 (witness): concrete unreadable-EXIF file whose name carries the
date pattern: resolution raises, the walk yields nothing, and the same
file with readable-but-empty metadata would have resolved to the
pattern bucket. -/
theorem exif_error_drops_file_witness :
    infer_image_dest_folder envExifFail "rw" "20230102_030405.jpg" =
      Except.error "pyexiv2: cannot open" ∧
    walk_src_dir envExifFail [("rw", ["20230102_030405.jpg"])] "image" = [] ∧
    infer_image_dest_folder envEmptyExif "rw" "20230102_030405.jpg" =
      Except.ok (dtBucket "20230102") := by
  have h := exif_error_drops_file envExifFail "rw" "20230102_030405.jpg"
    "pyexiv2: cannot open" "20230102" rfl rfl rfl
  exact ⟨h.1, h.2.1, h.2.2 envEmptyExif rfl⟩

/-- C2 (counterexample): a file whose EXIF read raises and whose name
matches the 8-digit pattern is dropped by the walk with no candidate at
all — resolution does not fall through to the filename tier, it fails
the file, contradicting the claim. -/
theorem exif_error_drop_instance :
    reSearchDate "20230715_142233.jpg" = some "20230715" ∧
    infer_image_dest_folder envExifFail "r" "20230715_142233.jpg" =
      Except.error "pyexiv2: cannot open" ∧
    walk_src_dir envExifFail [("r", ["20230715_142233.jpg"])] "image" = [] :=
  ⟨rfl, rfl, rfl⟩

/-! ## Claim C3 -/

/-- C3 (amended): in an exception-free run, every candidate *yielded by
the walk* receives exactly one decision (the decision list has exactly
one entry per walk candidate, in order).  The claim's stronger form —
one decision for every extension-matching file — fails: a matching file
whose date inference raises is dropped by the walk with no decision, and
a copy/hash failure aborts the loop leaving later candidates without
decisions. -/
theorem walk_candidates_one_decision (md5 : Content → Nat) (pick : Nat → Nat)
    (env : Env) (wl : List (String × List String)) (dst ft : String) (fs0 : FS)
    (h : (main md5 pick env wl dst ft fs0).err = none) :
    (main md5 pick env wl dst ft fs0).decisions.length =
      (walk_src_dir env wl ft).length := by
  rw [main_def] at h ⊢
  rcases hm : mainLoop md5 pick dst ⟨fs0, [], 0, 0, 0⟩
    (walk_src_dir env wl ft) with ⟨st', ds, err⟩
  rw [hm] at h
  have herr : err = none := h
  subst herr
  exact (mainLoop_none_counts md5 pick dst _ _ _ _ hm).1

/-- C3 (witness): a concrete exception-free run in which the number of
decisions equals the number of walk candidates. -/
theorem walk_candidates_one_decision_witness :
    (main md5c pickZero envEmptyExif wlW "d" "image" fsW).decisions.length =
      (walk_src_dir envEmptyExif wlW "image").length :=
  walk_candidates_one_decision md5c pickZero envEmptyExif wlW "d" "image" fsW rfl

/-- C3 (counterexample): `b.jpg` matches the image extension set, yet
the run produces no decision for it (the EXIF read raises, the walk
drops the file, `nfiles` stays 0 and no error is even reported) —
contradicting "every matching file yields exactly one CopyDecision". -/
theorem matching_file_without_decision :
    lowerEndsWithAny "b.jpg" IMAGE_EXT = true ∧
    (main md5c pickZero envExifFail [("r", ["b.jpg"])] "d" "image" fsC1).decisions = [] ∧
    (main md5c pickZero envExifFail [("r", ["b.jpg"])] "d" "image" fsC1).err = none ∧
    (main md5c pickZero envExifFail [("r", ["b.jpg"])] "d" "image" fsC1).state.nfiles = 0 :=
  ⟨rfl, rfl, rfl, rfl⟩

/-! ## Claim C4 -/

/-- C4 (amended): one placement never overwrites the file at its own
computed destination path `destDir/fileName`: when that path pre-exists,
its content is unchanged by the iteration (the incoming file is either
confirmed identical or written under a suffixed name).  Across a run the
claim's blanket "never overwritten" fails for a pre-existing file whose
name coincides with the generated `{prefix}-{fileName}`, since the
suffixed target is not collision-checked (see counterexample). -/
theorem placement_preserves_existing_dest (md5 : Content → Nat)
    (pick : Nat → Nat) (dst : String) (st : MainState)
    (c : String × String × String) (v : Content)
    (h : st.fs.read (dstPath dst c) = some v) :
    ((processFile md5 pick dst st c).1).fs.read (dstPath dst c) = some v := by
  unfold processFile
  have hb : (bumpState st c.2.2).fs = st.fs := bumpState_fs st c.2.2
  rcases placeFile_cases md5 pick dst (bumpState st c.2.2) c with
    ⟨e, st', hst, heq⟩ | ⟨v', w, hs, hd, hm, heq⟩ |
    ⟨v', w, hs, hd, hm, heq⟩ | ⟨v', hs, hd, heq⟩
  · rw [heq]
    rcases hst with rfl | rfl
    · rw [hb]; exact h
    · show (bumpState st c.2.2).fs.read (dstPath dst c) = some v
      rw [hb]; exact h
  · rw [heq]
    show (bumpState st c.2.2).fs.read (dstPath dst c) = some v
    rw [hb]; exact h
  · rw [heq]
    show ((bumpState st c.2.2).fs.write
      (suffixPath pick dst (bumpState st c.2.2) c) v').read (dstPath dst c) = some v
    rw [FS.read_write,
      if_neg (Ne.symm (suffixPath_ne_dstPath pick dst (bumpState st c.2.2) c)), hb]
    exact h
  · rw [hb] at hd
    rw [h] at hd
    cases hd

/-- C4 (witness): a concrete placement over a pre-existing destination
file of different content: the file at the computed destination path
keeps its content. -/
theorem placement_preserves_existing_dest_witness :
    ((processFile md5c pickZero "d" stC5 cC5).1).fs.read
      ["d", "unknown", "a.jpg"] = some [2] :=
  placement_preserves_existing_dest md5c pickZero "d" stC5 cC5 [2] rfl

/-- C4 (counterexample): the destination already holds
`xxxxx-a.jpg` (content `[9]`) and `a.jpg` (content `[2]`); placing a
source `a.jpg` of content `[1]` draws the random prefix `xxxxx` and
overwrites the pre-existing `xxxxx-a.jpg` with `[1]` — a file that
existed before the placement lost its content, contradicting the
claim. -/
theorem suffix_collision_overwrite_instance :
    fsC4.read ["d", "unknown", "xxxxx-a.jpg"] = some [9] ∧
    (main md5c pickX envEmptyExif [("r", ["a.jpg"])] "d" "image" fsC4).state.fs.read
      ["d", "unknown", "xxxxx-a.jpg"] = some [1] ∧
    (main md5c pickX envEmptyExif [("r", ["a.jpg"])] "d" "image" fsC4).err = none :=
  ⟨rfl, rfl, rfl⟩

/-! ## Claim C5 -/

/-- C5: when the computed destination path already exists, equal digests
yield `SkippedIdentical` with the state (and hence the filesystem)
completely unchanged; different digests yield a copy of the source
content to `destDir/{prefix}-{fileName}` — where the prefix is the next
5 random characters, all lowercase-alphanumeric — with the decision
`CopiedWithSuffix` and the original destination file left untouched. -/
theorem dedup_policy_on_existing_dest (md5 : Content → Nat)
    (pick : Nat → Nat) (dst : String) (st : MainState)
    (c : String × String × String) (v w : Content)
    (hs : st.fs.read (srcPath c) = some v)
    (hd : st.fs.read (dstPath dst c) = some w) :
    (md5 v = md5 w →
      placeFile md5 pick dst st c = (st, Except.ok CopyDecision.SkippedIdentical)) ∧
    (md5 v ≠ md5 w →
      placeFile md5 pick dst st c =
        ({ st with randCtr := st.randCtr + 5,
                   fs := st.fs.write (suffixPath pick dst st c) v },
         Except.ok (CopyDecision.CopiedWithSuffix (suffixPath pick dst st c)
           (rand_str (fun i => pick (st.randCtr + i)) 5))) ∧
      suffixPath pick dst st c =
        [dst, c.2.2, rand_str (fun i => pick (st.randCtr + i)) 5 ++ "-" ++ c.2.1] ∧
      (st.fs.write (suffixPath pick dst st c) v).read (dstPath dst c) = some w ∧
      (rand_str (fun i => pick (st.randCtr + i)) 5).length = 5 ∧
      ∀ ch ∈ (rand_str (fun i => pick (st.randCtr + i)) 5).toList,
        ch ∈ lettersStr.toList) := by
  constructor
  · intro hm
    exact placeFile_skip md5 pick dst hs hd hm
  · intro hm
    refine ⟨placeFile_suffix md5 pick dst hs hd hm, rfl, ?_,
      rand_str_length _ 5, rand_str_chars _ 5⟩
    rw [FS.read_write, if_neg (Ne.symm (suffixPath_ne_dstPath pick dst st c))]
    exact hd

/-- C5 (witness): a concrete name collision with different digests: the
decision is `CopiedWithSuffix` at `d/unknown/aaaaa-a.jpg`, and the
pre-existing `d/unknown/a.jpg` keeps its content. -/
theorem dedup_policy_on_existing_dest_witness :
    (placeFile md5c pickZero "d" stC5 cC5).2 =
      Except.ok (CopyDecision.CopiedWithSuffix
        ["d", "unknown", "aaaaa-a.jpg"] "aaaaa") ∧
    ((placeFile md5c pickZero "d" stC5 cC5).1).fs.read
      ["d", "unknown", "a.jpg"] = some [2] := by
  have h := (dedup_policy_on_existing_dest md5c pickZero "d" stC5 cC5
    [1] [2] rfl rfl).2 (by decide)
  constructor
  · rw [h.1]
    rfl
  · rw [h.1]
    exact h.2.2.1

/-! ## Claim C6 -/

/-- C6 (amended): in an exception-free run the summary reports
`nfiles` = the number of walk candidates and `cfiles` = the number of
plain `Copied` decisions only; a file newly written under a suffixed
name (`CopiedWithSuffix`) is *not* counted as copied, since the only
`cfiles += 1` sits in the fresh-destination branch (line 150, see
counterexample). -/
theorem summary_counts_plain_copies (md5 : Content → Nat) (pick : Nat → Nat)
    (env : Env) (wl : List (String × List String)) (dst ft : String) (fs0 : FS)
    (h : (main md5 pick env wl dst ft fs0).err = none) :
    (main md5 pick env wl dst ft fs0).state.nfiles =
      (walk_src_dir env wl ft).length ∧
    (main md5 pick env wl dst ft fs0).state.cfiles =
      (main md5 pick env wl dst ft fs0).decisions.countP
        (fun d => isPlainCopy d) := by
  rw [main_def] at h ⊢
  rcases hm : mainLoop md5 pick dst ⟨fs0, [], 0, 0, 0⟩
    (walk_src_dir env wl ft) with ⟨st', ds, err⟩
  rw [hm] at h
  have herr : err = none := h
  subst herr
  obtain ⟨_, hn, hc⟩ := mainLoop_none_counts md5 pick dst _ _ _ _ hm
  constructor
  · show st'.nfiles = (walk_src_dir env wl ft).length
    rw [hn]
    simp
  · show st'.cfiles = ds.countP (fun d => isPlainCopy d)
    rw [hc]
    simp

/-- C6 (witness): a concrete exception-free run whose summary counters
match the candidate count and the plain-copy count. -/
theorem summary_counts_plain_copies_witness :
    (main md5c pickOne envEmptyExif wlW "d" "image" fsW).state.nfiles =
      (walk_src_dir envEmptyExif wlW "image").length ∧
    (main md5c pickOne envEmptyExif wlW "d" "image" fsW).state.cfiles =
      (main md5c pickOne envEmptyExif wlW "d" "image" fsW).decisions.countP
        (fun d => isPlainCopy d) :=
  summary_counts_plain_copies md5c pickOne envEmptyExif wlW "d" "image" fsW rfl

/-- C6 (counterexample): a run that writes a new file
`d/unknown/aaaaa-a.jpg` to the destination (the suffixed-copy branch)
yet reports `Files copied: 0` — a newly written file is not counted,
contradicting the claim. -/
theorem suffixed_copy_not_counted_instance :
    fsC6.read ["d", "unknown", "aaaaa-a.jpg"] = none ∧
    (main md5c pickZero envEmptyExif [("r", ["a.jpg"])] "d" "image" fsC6).state.fs.read
      ["d", "unknown", "aaaaa-a.jpg"] = some [1] ∧
    (main md5c pickZero envEmptyExif [("r", ["a.jpg"])] "d" "image" fsC6).state.cfiles = 0 ∧
    (main md5c pickZero envEmptyExif [("r", ["a.jpg"])] "d" "image" fsC6).err = none :=
  ⟨rfl, rfl, rfl, rfl⟩

/-! ## Claim C7 -/

/-- C7 (amended): after an exception-free run, a second run with
identical arguments reports zero newly-copied files (`cfiles = 0`) and
raises no exception — every candidate finds its destination path already
present.  The claim's stronger form fails: a candidate whose destination
path holds different content is *not* `SkippedIdentical`; it is copied
again under a fresh random suffix, so the second run can still write
files (see counterexample). -/
theorem second_run_no_new_plain_copies (md5 : Content → Nat)
    (pick1 pick2 : Nat → Nat) (env : Env)
    (wl : List (String × List String)) (dst ft : String) (fs0 : FS)
    (h : (main md5 pick1 env wl dst ft fs0).err = none) :
    (main md5 pick2 env wl dst ft
      (main md5 pick1 env wl dst ft fs0).state.fs).state.cfiles = 0 ∧
    (main md5 pick2 env wl dst ft
      (main md5 pick1 env wl dst ft fs0).state.fs).err = none := by
  rw [main_def] at h
  rcases hm : mainLoop md5 pick1 dst ⟨fs0, [], 0, 0, 0⟩
    (walk_src_dir env wl ft) with ⟨st1, ds1, err1⟩
  rw [hm] at h
  have herr : err1 = none := h
  subst herr
  have hfs : (main md5 pick1 env wl dst ft fs0).state.fs = st1.fs := by
    rw [main_def, hm]
  rw [hfs, main_def]
  have hex := mainLoop_none_exists md5 pick1 dst _ _ _ _ hm
  have hz := mainLoop_exists_zero md5 pick2 dst (walk_src_dir env wl ft)
    ⟨st1.fs, [], 0, 0, 0⟩ (fun c hc => hex c hc)
  exact ⟨hz.1, hz.2⟩

/-- C7 (witness): a concrete pair of runs on a clean destination: the
first copies the file, the second reports zero copies and no error. -/
theorem second_run_no_new_plain_copies_witness :
    (main md5c pickOne envEmptyExif wlW "d" "image"
      (main md5c pickZero envEmptyExif wlW "d" "image" fsW).state.fs).state.cfiles = 0 ∧
    (main md5c pickOne envEmptyExif wlW "d" "image"
      (main md5c pickZero envEmptyExif wlW "d" "image" fsW).state.fs).err = none :=
  second_run_no_new_plain_copies md5c pickZero pickOne envEmptyExif
    wlW "d" "image" fsW rfl

/-- C7 (counterexample): two source files named `a.jpg` with different
contents.  The first run copies one plainly and the other with suffix
`aaaaa`.  The second run, with identical arguments, is *not* all
`SkippedIdentical`: the colliding candidate is copied again under the
fresh suffix `bbbbb`, writing a file that did not exist after run one —
contradicting "no new file is written by the second run". -/
theorem second_run_rewrites_suffixed_instance :
    runC7a.err = none ∧
    runC7b.decisions = [CopyDecision.SkippedIdentical,
      CopyDecision.CopiedWithSuffix ["d", "unknown", "bbbbb-a.jpg"] "bbbbb"] ∧
    runC7a.state.fs.read ["d", "unknown", "bbbbb-a.jpg"] = none ∧
    runC7b.state.fs.read ["d", "unknown", "bbbbb-a.jpg"] = some [2] :=
  ⟨rfl, rfl, rfl, rfl⟩

/-! ## Claim C8 -/

/-- C8: video date resolution tries the 8-digit filename pattern first
(a successful match determines the bucket); when the pattern is absent
it derives the bucket from the last-modified timestamp's year and month;
and every successful resolution is a year-month bucket — the literal
`"unknown"` is never returned. -/
theorem video_inference_never_unknown (env : Env) (dir file s : String)
    (h : infer_video_dest_folder env dir file = Except.ok s) :
    s ≠ "unknown" ∧
    (∀ dt, reSearchDate file = some dt → s = dtBucket dt) ∧
    (reSearchDate file = none →
      ∃ y m, env.mtimeYM dir file = Except.ok (y, m) ∧
        s = zfill 4 y ++ "-" ++ zfill 2 m) := by
  unfold infer_video_dest_folder at h
  cases hr : reSearchDate file with
  | some dt =>
    rw [hr] at h
    injection h with h
    subst h
    refine ⟨?_, ?_, ?_⟩
    · apply ne_unknown_of_dash
      exact dash_mem_data _ _
    · intro dt' h'
      injection h' with h'
      rw [h']
    · intro h'
      cases h'
  | none =>
    rw [hr] at h
    cases hmt : env.mtimeYM dir file with
    | error e => rw [hmt] at h; cases h
    | ok ym =>
      rcases ym with ⟨y, m⟩
      rw [hmt] at h
      injection h with h
      subst h
      refine ⟨?_, ?_, fun _ => ⟨y, m, rfl, rfl⟩⟩
      · apply ne_unknown_of_dash
        exact dash_mem_data _ _
      · intro dt h'
        cases h'

/-- C8 (witness): a pattern-free video file resolves through the
last-modified timestamp to the padded year-month bucket, which is not
the unknown sentinel. -/
theorem video_inference_never_unknown_witness :
    ("2020-05" : String) ≠ "unknown" ∧
    infer_video_dest_folder envEmptyExif "r" "vid.mp4" = Except.ok "2020-05" :=
  ⟨(video_inference_never_unknown envEmptyExif "r" "vid.mp4" "2020-05" rfl).1, rfl⟩

/-! ## Claim C9 -/

/-- C9 (amended): the filename-pattern tier formats the bucket from the
8-digit token's digit substrings (hence zero-padded), and an image whose
date cannot be resolved maps to exactly the literal `"unknown"`; the
EXIF tier however concatenates the raw year and month components of the
metadata string with no re-formatting, so the `{year:04d}-{month:02d}`
shape only arises when the metadata itself is zero-padded (see
counterexample). -/
theorem bucket_formatting_tiers (env : Env) (r f : String) :
    (∀ data v y m rest, env.exif r f = Except.ok data →
      data.lookup "Exif.Image.DateTime" = some v →
      splitColon2 v = [y, m, rest] →
      infer_image_dest_folder env r f = Except.ok (y ++ "-" ++ m)) ∧
    (∀ dt, env.exif r f = Except.ok [] → reSearchDate f = some dt →
      infer_image_dest_folder env r f = Except.ok (dtBucket dt) ∧
      dtBucket dt = String.mk (dt.toList.take 4) ++ "-" ++
        String.mk ((dt.toList.drop 4).take 2)) ∧
    (env.exif r f = Except.ok [] → reSearchDate f = none →
      infer_image_dest_folder env r f = Except.ok "unknown") := by
  refine ⟨?_, ?_, ?_⟩
  · intro data v y m rest hdata hlook hsplit
    unfold infer_image_dest_folder
    rw [hdata]
    have hne : data ≠ [] := by
      intro hnil
      subst hnil
      simp at hlook
    dsimp only
    rw [if_pos ⟨hne, by rw [hlook]; exact rfl⟩, hlook]
    show exifYM v = Except.ok (y ++ "-" ++ m)
    unfold exifYM
    rw [hsplit]
  · intro dt hdata hp
    refine ⟨?_, rfl⟩
    unfold infer_image_dest_folder
    simp [hdata, hp]
  · intro hdata hp
    unfold infer_image_dest_folder
    simp [hdata, hp]

/-- C9 (witness): the three tiers at concrete inputs: an EXIF value with
unpadded month yields the unpadded concatenation, the filename pattern
yields its digit substrings, and the unresolved case yields the
sentinel. -/
theorem bucket_formatting_tiers_witness :
    infer_image_dest_folder envExifMonth7 "rw" "b.jpg" =
      Except.ok ("2023" ++ "-" ++ "7") ∧
    infer_image_dest_folder envEmptyExif "rw" "20230715_142233.jpg" =
      Except.ok (dtBucket "20230715") ∧
    infer_image_dest_folder envEmptyExif "rw" "b.jpg" = Except.ok "unknown" := by
  refine ⟨(bucket_formatting_tiers envExifMonth7 "rw" "b.jpg").1
    [("Exif.Image.DateTime", "2023:7:15 10:00:00")] "2023:7:15 10:00:00"
    "2023" "7" "15 10:00:00" rfl rfl rfl, ?_, ?_⟩
  · exact ((bucket_formatting_tiers envEmptyExif "rw" "20230715_142233.jpg").2.1
      "20230715" rfl rfl).1
  · exact (bucket_formatting_tiers envEmptyExif "rw" "b.jpg").2.2 rfl rfl

/-- C9 (counterexample): an EXIF timestamp `"2023:7:15 10:00:00"` — the
resolved year 2023 and month 7 — produces the bucket `"2023-7"`, not the
claimed zero-padded `"2023-07"`. -/
theorem exif_month_unpadded_instance :
    envExifMonth7.exif "r" "a.jpg" =
      Except.ok [("Exif.Image.DateTime", "2023:7:15 10:00:00")] ∧
    infer_image_dest_folder envExifMonth7 "r" "a.jpg" = Except.ok "2023-7" ∧
    ("2023-7" : String) ≠ "2023-07" :=
  ⟨rfl, rfl, by decide⟩

/-! ## Claim C10 -/

/-- C10: any `--type` flag value other than the exact string `"image"` —
`"video"`, but also `"Image"`, `"IMAGE"` or arbitrary strings — makes
the walk use the video extension set and the video inference strategy:
the whole run coincides with a `-t video` run.  The flag value is never
validated or rejected anywhere. -/
theorem type_flag_selects_video (md5 : Content → Nat) (pick : Nat → Nat)
    (env : Env) (wl : List (String × List String)) (dst : String) (fs0 : FS)
    (ft : String) (h : ft ≠ "image") :
    walk_src_dir env wl ft = walk_src_dir env wl "video" ∧
    main md5 pick env wl dst ft fs0 = main md5 pick env wl dst "video" fs0 := by
  have hw : walk_src_dir env wl ft = walk_src_dir env wl "video" := by
    unfold walk_src_dir
    simp only [if_neg h, if_neg (show ¬("video" = "image") by decide)]
  refine ⟨hw, ?_⟩
  unfold main
  rw [hw]

/-- C10 (witness): the capitalized value `"Image"` is treated as video:
the run is identical to a `-t video` run. -/
theorem type_flag_selects_video_witness :
    walk_src_dir envEmptyExif wlW "Image" = walk_src_dir envEmptyExif wlW "video" ∧
    main md5c pickZero envEmptyExif wlW "d" "Image" fsW =
      main md5c pickZero envEmptyExif wlW "d" "video" fsW :=
  type_flag_selects_video md5c pickZero envEmptyExif wlW "d" fsW "Image" (by decide)

end Mediafiler
